import Mathlib

/-!
Verification of the core project-model pipeline of `makeprojects.py`:
path normalization, file discovery and classification, hierarchical
grouping, and deterministic identifier assignment (MD5-based Xcode
96-bit uuids and RFC-4122 version-3 uuids for Visual Studio filters).

Python 2 strings are modelled as `List Char` (the sources only feed
ASCII data to these functions); machine words are `Nat` with explicit
reduction modulo 2^32.
-/

set_option maxRecDepth 10000

/-- Python byte strings are modelled as lists of characters. -/
abbrev PyStr := List Char

/-- Convenience injection of Lean string literals into the model. -/
def str (s : String) : PyStr := s.data

/-- Python 2 `str.lower` lowercases the ASCII letters only. -/
def pyLowerChar (c : Char) : Char :=
  if 'A' ≤ c ∧ c ≤ 'Z' then Char.ofNat (c.toNat + 32) else c

/-- Python 2 `str.upper` uppercases the ASCII letters only. -/
def pyUpperChar (c : Char) : Char :=
  if 'a' ≤ c ∧ c ≤ 'z' then Char.ofNat (c.toNat - 32) else c

def pyLower (s : PyStr) : PyStr := s.map pyLowerChar

def pyUpper (s : PyStr) : PyStr := s.map pyUpperChar

/-- `startsWithL p s` holds when `s` begins with `p` (Python `startswith`). -/
def startsWithL : PyStr → PyStr → Bool
  | [], _ => true
  | _ :: _, [] => false
  | a :: as, b :: bs => a = b && startsWithL as bs

/-- Python `s.endswith(sfx)`. -/
def pyEndswith (s sfx : PyStr) : Bool :=
  startsWithL sfx.reverse s.reverse

/-- Byte-wise lexicographic strict comparison, Python 2 `cmp(a, b) < 0` on `str`. -/
def pyStrLt : PyStr → PyStr → Bool
  | [], [] => false
  | [], _ :: _ => true
  | _ :: _, [] => false
  | a :: as, b :: bs =>
      if a.toNat < b.toNat then true
      else if b.toNat < a.toNat then false
      else pyStrLt as bs

/-- Stable insertion used to model Python's stable `sorted`: `x` is placed
before the first element not strictly below it, so earlier elements win ties. -/
def pyinsert (lt : α → α → Bool) (x : α) : List α → List α
  | [] => [x]
  | y :: ys => if lt y x then y :: pyinsert lt x ys else x :: y :: ys

/-- Python `sorted(l, cmp)` (stable); `lt x y` models `cmp(x, y) < 0`.
Any two stable sorts of a total preorder agree, so insertion sort gives
exactly the interpreter's result for the string comparators used here. -/
def pysorted (lt : α → α → Bool) : List α → List α
  | [] => []
  | x :: xs => pyinsert lt x (pysorted lt xs)

/-- Python `s.rfind(c)`: index of the last occurrence, `none` for `-1`. -/
def rfindIdx (s : PyStr) (c : Char) : Option Nat :=
  match s.reverse.findIdx? (· = c) with
  | none => none
  | some j => some (s.length - 1 - j)

/-- Python `s.split(sep)` for a one-character separator: `"".split` is `[""]`. -/
def pysplit (sep : Char) : PyStr → List PyStr
  | [] => [[]]
  | c :: cs =>
      if c = sep then [] :: pysplit sep cs
      else
        match pysplit sep cs with
        | g :: gs => (c :: g) :: gs
        | [] => [[c]]

/-- POSIX `os.path.join(a, b)` for the two-argument uses in the source. -/
def pyjoin (a b : PyStr) : PyStr :=
  if startsWithL (str "/") b then b
  else if a = [] || pyEndswith a (str "/") then a ++ b
  else a ++ '/' :: b

/-- POSIX `os.path.basename`. -/
def pybasename (p : PyStr) : PyStr :=
  match rfindIdx p '/' with
  | some i => p.drop (i + 1)
  | none => p

/-- `converttowindowsslashes`: `input.replace('/', '\\')`. -/
def converttowindowsslashes (input : PyStr) : PyStr :=
  input.map (fun c => if c = '/' then '\\' else c)

/-- `converttolinuxslashes`: `input.replace('\\', '/')`. -/
def converttolinuxslashes (input : PyStr) : PyStr :=
  input.map (fun c => if c = '\\' then '/' else c)

/-- `converttowindowsslasheswithendslash`. When the converted path does not
already end in a backslash the source executes `input.append('\\')`, which is
a `list` method: on a Python 2 `str` it raises `AttributeError`, modelled here
as `Except.error`. -/
def converttowindowsslasheswithendslash (input : PyStr) : Except PyStr PyStr :=
  let input := converttowindowsslashes input
  if pyEndswith input (str "\\") then Except.ok input
  else Except.error (str "AttributeError: str object has no attribute append")

/-- The `while newname.startswith('..\\') or newname.startswith('../')` loop
of `extractgroupname`: each iteration drops the three leading characters. -/
def stripDotDot : PyStr → PyStr
  | '.' :: '.' :: '\\' :: rest => stripDotDot rest
  | '.' :: '.' :: '/' :: rest => stripDotDot rest
  | s => s

/-- The single (non-looping) `if newname.startswith('.\\') or
newname.startswith('./')` strip of `extractgroupname`. -/
def stripSingleDot (s : PyStr) : PyStr :=
  if startsWithL (str ".\\") s || startsWithL (str "./") s then s.drop 2 else s

/-- `extractgroupname`: keep the text before the last separator (backslash
searched first), then strip leading `../` style segments repeatedly and one
leading `./` style segment. Returns `''` when no separator occurs. -/
def extractgroupname (name : PyStr) : PyStr :=
  let idx := match rfindIdx name '\\' with
             | some i => some i
             | none => rfindIdx name '/'
  match idx with
  | none => []
  | some index => stripSingleDot (stripDotDot (name.take index))

/-! ## MD5 (RFC 1321), executable over byte lists

`hashlib.md5` and `uuid.uuid3` are the two identifier derivations of the
source; both are MD5 over the key bytes. Words are `Nat` values reduced
modulo `4294967296 = 2^32`. -/

/-- The 64 MD5 sine-derived constants `floor(abs(sin(i+1)) * 2^32)`. -/
def md5K : List Nat :=
  [3614090360, 3905402710, 606105819, 3250441966, 4118548399, 1200080426,
   2821735955, 4249261313, 1770035416, 2336552879, 4294925233, 2304563134,
   1804603682, 4254626195, 2792965006, 1236535329, 4129170786, 3225465664,
   643717713, 3921069994, 3593408605, 38016083, 3634488961, 3889429448,
   568446438, 3275163606, 4107603335, 1163531501, 2850285829, 4243563512,
   1735328473, 2368359562, 4294588738, 2272392833, 1839030562, 4259657740,
   2763975236, 1272893353, 4139469664, 3200236656, 681279174, 3936430074,
   3572445317, 76029189, 3654602809, 3873151461, 530742520, 3299628645,
   4096336452, 1126891415, 2878612391, 4237533241, 1700485571, 2399980690,
   4293915773, 2240044497, 1873313359, 4264355552, 2734768916, 1309151649,
   4149444226, 3174756917, 718787259, 3951481745]

/-- The 64 MD5 per-round left-rotation amounts. -/
def md5S : List Nat :=
  [7, 12, 17, 22, 7, 12, 17, 22, 7, 12, 17, 22, 7, 12, 17, 22,
   5, 9, 14, 20, 5, 9, 14, 20, 5, 9, 14, 20, 5, 9, 14, 20,
   4, 11, 16, 23, 4, 11, 16, 23, 4, 11, 16, 23, 4, 11, 16, 23,
   6, 10, 15, 21, 6, 10, 15, 21, 6, 10, 15, 21, 6, 10, 15, 21]

/-- 32-bit left rotation on `Nat` words. -/
def rotl32 (x n : Nat) : Nat :=
  (x <<< n) % 4294967296 ||| x >>> (32 - n)

/-- Little-endian packing of bytes into 32-bit words, 4 bytes per word. -/
def bytesToWords : List Nat → List Nat
  | b0 :: b1 :: b2 :: b3 :: rest =>
      (b0 + 256 * b1 + 65536 * b2 + 16777216 * b3) :: bytesToWords rest
  | _ => []

/-- Little-endian bytes of a word, `n` bytes long. -/
def leBytes (n x : Nat) : List Nat :=
  (List.range n).map (fun i => (x >>> (8 * i)) % 256)

/-- MD5 padding: `0x80`, zeros to 56 mod 64, then the 64-bit bit length. -/
def md5pad (msg : List Nat) : List Nat :=
  let len := msg.length
  let zeros := (120 - (len + 1) % 64) % 64
  msg ++ 128 :: List.replicate zeros 0 ++ leBytes 8 (8 * len)

/-- Cut a byte list into 64-byte blocks; the fuel is an upper bound on the
block count (the callers pass the list length, which always suffices). -/
def chunks64 : Nat → List Nat → List (List Nat)
  | 0, _ => []
  | _ + 1, [] => []
  | n + 1, l => l.take 64 :: chunks64 n (l.drop 64)

/-- One MD5 compression step of block `words` into the running state. -/
def md5block (words : List Nat) (st : Nat × Nat × Nat × Nat) : Nat × Nat × Nat × Nat :=
  let final := (List.range 64).foldl
    (fun (abcd : Nat × Nat × Nat × Nat) i =>
      let a := abcd.1
      let b := abcd.2.1
      let c := abcd.2.2.1
      let d := abcd.2.2.2
      let f :=
        if i < 16 then b &&& c ||| (b ^^^ 4294967295) &&& d
        else if i < 32 then d &&& b ||| (d ^^^ 4294967295) &&& c
        else if i < 48 then b ^^^ c ^^^ d
        else c ^^^ (b ||| (d ^^^ 4294967295))
      let g :=
        if i < 16 then i
        else if i < 32 then (5 * i + 1) % 16
        else if i < 48 then (3 * i + 5) % 16
        else 7 * i % 16
      let tmp := (a + f + md5K.getD i 0 + words.getD g 0) % 4294967296
      (d, (b + rotl32 tmp (md5S.getD i 0)) % 4294967296, b, c))
    st
  ((st.1 + final.1) % 4294967296,
   (st.2.1 + final.2.1) % 4294967296,
   (st.2.2.1 + final.2.2.1) % 4294967296,
   (st.2.2.2 + final.2.2.2) % 4294967296)

/-- MD5 digest of a byte list, as the 16 digest bytes. -/
def md5digest (msg : List Nat) : List Nat :=
  let padded := md5pad msg
  let final := (chunks64 padded.length padded).foldl
    (fun st block => md5block (bytesToWords block) st)
    (1732584193, 4023233417, 2562383102, 271733878)
  leBytes 4 final.1 ++ leBytes 4 final.2.1 ++ leBytes 4 final.2.2.1 ++ leBytes 4 final.2.2.2

/-- One lowercase hexadecimal digit. -/
def hexDigit (n : Nat) : Char :=
  if n < 10 then Char.ofNat (48 + n) else Char.ofNat (87 + n)

/-- Lowercase hexadecimal rendering of a byte list. -/
def bytesToHex (bs : List Nat) : PyStr :=
  bs.flatMap (fun b => [hexDigit (b / 16), hexDigit (b % 16)])

/-- Python `hashlib.md5(s).hexdigest()` on an ASCII string. -/
def md5hex (s : PyStr) : PyStr :=
  bytesToHex (md5digest (s.map Char.toNat))

/-- `xcodeuuid`: normalize separators to backslash, MD5, uppercase the hex
digest and keep the first 24 hex characters (96 bits). -/
def xcodeuuid (input : PyStr) : PyStr :=
  (pyUpper (md5hex (converttowindowsslashes input))).take 24

/-- The 16 bytes of `uuid.NAMESPACE_DNS`. -/
def namespaceDNS : List Nat :=
  [107, 167, 184, 16, 157, 173, 17, 209, 128, 180, 0, 192, 79, 212, 48, 200]

/-- `str(uuid.uuid3(uuid.NAMESPACE_DNS, name))`: MD5 of namespace plus name
with version and variant bits forced, rendered 8-4-4-4-12 in lowercase. -/
def uuid3str (name : PyStr) : PyStr :=
  let d := md5digest (namespaceDNS ++ name.map Char.toNat)
  let d := d.take 6 ++ [d.getD 6 0 &&& 15 ||| 48] ++ [d.getD 7 0]
             ++ [d.getD 8 0 &&& 63 ||| 128] ++ d.drop 9
  let h := bytesToHex d
  h.take 8 ++ '-' :: (h.drop 8).take 4 ++ '-' :: (h.drop 12).take 4
    ++ '-' :: (h.drop 16).take 4 ++ '-' :: h.drop 20

/-- The Visual Studio 2010 filter identifier of a group:
`str(uuid.uuid3(uuid.NAMESPACE_DNS, projectfilename + group)).upper()`. -/
def vs2010groupuuid (projectfilename group : PyStr) : PyStr :=
  pyUpper (uuid3str (projectfilename ++ group))

/-! ## Configuration, catalog entries and the modelled filesystem -/

/-- The `SolutionData` configuration fields read by the embedded components
(the class also carries emitter-only fields such as `configurations`,
`finalfolder`, `defines` and `includefolders`); defaults as in the class. -/
structure SolutionData where
  workingDir : PyStr := []
  kind : PyStr := str "tool"
  projectname : PyStr := str "project"
  ide : PyStr := str "vs2010"
  platform : PyStr := str "windows"
  exclude : List PyStr := []
  sourcefolders : List PyStr := [str "."]
deriving DecidableEq

/-- One discovered file; field defaults as in the `SourceFile` class. -/
structure SourceFile where
  filename : PyStr := []
  directory : PyStr := []
  type : PyStr := str "cpp"
  uuid : PyStr := []
  typeuuid : PyStr := []
deriving DecidableEq

/-- One directory child as seen by `os.listdir` plus the result of the
`os.path.isfile` probe (false for subdirectories and dangling links). -/
structure FSEntry where
  name : PyStr
  isFile : Bool
deriving DecidableEq

/-- The scanned filesystem: the listings of the directories that exist,
keyed by joined path. A missing key models `os.path.isdir` being false. -/
abbrev FileSystem := List (PyStr × List FSEntry)

def fsLookup (fs : FileSystem) (d : PyStr) : Option (List FSEntry) :=
  (fs.find? (fun e => e.1 == d)).map (·.2)

/-- The directory separator of the scanning host (`os.sep`); the embedding
fixes the POSIX convention. -/
def osSep : Char := '/'

/-- `codeExtensions`: acceptable input suffixes and their buckets, in source
order. -/
def codeExtensions : List (PyStr × PyStr) :=
  [(str ".c", str "cpp"),
   (str ".cpp", str "cpp"),
   (str ".hpp", str "h"),
   (str ".h", str "h"),
   (str ".hh", str "h"),
   (str ".i", str "h"),
   (str ".inc", str "h"),
   (str ".rc", str "windowsresource"),
   (str ".r", str "macresource"),
   (str ".rsrc", str "macresource"),
   (str ".hlsl", str "hlsl")]

/-- The `for extension in codeExtensions: if testName.endswith(...)` loop of
`scandirectory`: first matching suffix wins, `break` after one entry. -/
def classifytype (testName : PyStr) : Option PyStr :=
  (codeExtensions.find? (fun e => pyEndswith testName e.1)).map (·.2)

/-- The exclusion loop of `scandirectory`: the lowered basename is compared
for equality against each lowered exclusion entry. -/
def isexcluded (exclude : List PyStr) (testName : PyStr) : Bool :=
  exclude.any (fun ex => testName == pyLower ex)

/-- The body of the `for baseName in nameList` loop of `scandirectory`:
the entries (none or one) this child contributes to the catalog. -/
def scanentry (sol : SolutionData) (directory searchDir : PyStr) (e : FSEntry) :
    List SourceFile :=
  let testName := pyLower e.name
  if isexcluded sol.exclude testName then []
  else if e.isFile then
    match classifytype testName with
    | some t =>
        let addedname := if directory = str "." then e.name else directory ++ osSep :: e.name
        [{ filename := addedname, directory := searchDir, type := t }]
    | none => []
  else []

/-- The whole listing loop of `scandirectory`, appending in listing order. -/
def scanListing (sol : SolutionData) (directory searchDir : PyStr)
    (nameList : List FSEntry) : List SourceFile :=
  nameList.flatMap (scanentry sol directory searchDir)

/-- `scandirectory`: append the matching files of one configured folder to
the running catalog; a folder that is not a directory contributes nothing. -/
def scandirectory (sol : SolutionData) (fs : FileSystem) (directory : PyStr)
    (codefiles : List SourceFile) : List SourceFile :=
  let searchDir := pyjoin sol.workingDir directory
  match fsLookup fs searchDir with
  | some nameList => codefiles ++ scanListing sol directory searchDir nameList
  | none => codefiles

/-- `getfilelist`: scan every configured source folder, record the folders
that contributed at least one file, and sort the catalog by the
windows-slashed relative path. -/
def getfilelist (sol : SolutionData) (fs : FileSystem) :
    List SourceFile × List PyStr :=
  let r := sol.sourcefolders.foldl
    (fun (acc : List SourceFile × List PyStr) sourcefolder =>
      let codefiles := scandirectory sol fs sourcefolder acc.1
      if codefiles.length ≠ acc.1.length then (codefiles, acc.2 ++ [sourcefolder])
      else (codefiles, acc.2))
    ([], [])
  (pysorted (fun x y =>
      pyStrLt (converttowindowsslashes x.filename) (converttowindowsslashes y.filename)) r.1,
   r.2)

/-! ## Hierarchical grouping -/

/-- The `groups` dictionary: GroupKey to the files sharing it, modelled as an
association list in insertion order. -/
abbrev Groups := List (PyStr × List SourceFile)

def glookup (gs : Groups) (k : PyStr) : Option (List SourceFile) :=
  (gs.find? (fun g => g.1 == k)).map (·.2)

/-- `groups[groupname].append(item)`, creating the key on first use. -/
def addtogroup : Groups → PyStr → SourceFile → Groups
  | [], k, f => [(k, [f])]
  | g :: gs, k, f =>
      if g.1 = k then (g.1, g.2 ++ [f]) :: gs else g :: addtogroup gs k f

/-- The group-collection loop of `createxcodesolution` (lines 1603-1611):
every catalog entry is bucketed under `extractgroupname` of its filename. -/
def buildgroups (catalog : List SourceFile) : Groups :=
  catalog.foldl (fun gs item => addtogroup gs (extractgroupname item.filename) item) []

/-- The ad hoc recursive dictionary used as a tree (`tree = dict()`). -/
inductive PDict : Type
  | mk : List (PyStr × PDict) → PDict

def lookupd : List (PyStr × PDict) → PyStr → Option PDict
  | [], _ => none
  | (k, t) :: rest, p => if k = p then some t else lookupd rest p

def haskeyE : List (PyStr × PDict) → PyStr → Bool
  | [], _ => false
  | (k, _) :: rest, p => k = p || haskeyE rest p

/-- Replace the subtree of the (unique) key `p` by `f` of it. -/
def updateEntries (f : PDict → PDict) : List (PyStr × PDict) → PyStr → List (PyStr × PDict)
  | [], _ => []
  | (k, t) :: rest, p =>
      if k = p then (k, f t) :: rest else (k, t) :: updateEntries f rest p

/-- The per-group insertion loop (`for x in xrange(len(parts))`): walk the
path, creating an empty dictionary for each missing segment. -/
def treeinsert : PDict → List PyStr → PDict
  | t, [] => t
  | PDict.mk l, p :: ps =>
      if haskeyE l p then PDict.mk (updateEntries (fun sub => treeinsert sub ps) l p)
      else PDict.mk (l ++ [(p, treeinsert (PDict.mk []) ps)])

/-- The tree-construction loop of `createxcodesolution` (lines 1617-1632):
every group key, the empty one included, is split on `/` and inserted. -/
def buildtree (gs : Groups) : PDict :=
  gs.foldl (fun t g => treeinsert t (pysplit '/' g.1)) (PDict.mk [])

/-- `hasPath t segs` holds when walking `segs` from the root of `t` meets a
node at every step: the tree contains a node for that path. -/
def hasPath : PDict → List PyStr → Bool
  | _, [] => true
  | PDict.mk l, p :: ps =>
      match lookupd l p with
      | some t => hasPath t ps
      | none => false

/-- Boolean list-prefix test, used to state which paths a tree contains. -/
def isPrefixB [DecidableEq α] : List α → List α → Bool
  | [], _ => true
  | _ :: _, [] => false
  | a :: as, b :: bs => a = b && isPrefixB as bs

/-! ## Xcode solution model (`createxcodesolution` and `dumptreevsxcode`) -/

/-- `getidecode`: the string-chain mapping from IDE (and platform, for
CodeWarrior) to the short IDE code; `None` when unrecognized. -/
def getidecode (sol : SolutionData) : Option PyStr :=
  if sol.ide = str "xcode3" then some (str "xc3")
  else if sol.ide = str "xcode4" then some (str "xc4")
  else if sol.ide = str "xcode5" then some (str "xc5")
  else if sol.ide = str "vs2003" then some (str "vc7")
  else if sol.ide = str "vs2005" then some (str "vc8")
  else if sol.ide = str "vs2008" then some (str "vc9")
  else if sol.ide = str "vs2010" then some (str "v10")
  else if sol.ide = str "vs2012" then some (str "v11")
  else if sol.ide = str "codeblocks" then some (str "cdb")
  else if sol.ide = str "watcom" then some (str "wat")
  else if sol.ide = str "codewarrior" ∧ sol.platform = str "windows" then some (str "cw9")
  else if sol.ide = str "codewarrior" ∧ sol.platform = str "mac" then some (str "c10")
  else none

/-- `getplatformcode`: the string chain mapping platform to its code. -/
def getplatformcode (platform : PyStr) : Option PyStr :=
  if platform = str "windows" then some (str "win")
  else if platform = str "macosx" then some (str "osx")
  else if platform = str "linux" then some (str "lnx")
  else if platform = str "ps3" then some (str "ps3")
  else if platform = str "ps4" then some (str "ps4")
  else if platform = str "xbox" then some (str "xbx")
  else if platform = str "xbox360" then some (str "x36")
  else if platform = str "xboxone" then some (str "one")
  else if platform = str "shield" then some (str "shi")
  else if platform = str "ios" then some (str "ios")
  else if platform = str "mac" then some (str "mac")
  else if platform = str "msdos" then some (str "dos")
  else if platform = str "beos" then some (str "bos")
  else if platform = str "ouya" then some (str "oya")
  else none

/-- The semi-global synthetic identifiers of `createxcodesolution`
(lines 1429-1436), each derived from a role literal concatenated with
`projectnamecode`. -/
def rootuuid (pnc : PyStr) : PyStr := xcodeuuid (str "PBXProjectRoot" ++ pnc)

def shellscriptuuid (pnc : PyStr) : PyStr :=
  xcodeuuid (str "PBXShellScriptBuildPhase" ++ pnc)

def frameworksuuid (pnc : PyStr) : PyStr :=
  xcodeuuid (str "PBXFrameworksBuildPhase" ++ pnc)

def sourcesuuid (pnc : PyStr) : PyStr :=
  xcodeuuid (str "PBXSourcesBuildPhase" ++ pnc)

def headersuuid (pnc : PyStr) : PyStr :=
  xcodeuuid (str "PBXHeadersBuildPhase" ++ pnc)

def nativetargetuuid (pnc : PyStr) : PyStr :=
  xcodeuuid (str "PBXNativeTarget" ++ pnc)

def pbxprojectuuid (pnc : PyStr) : PyStr := xcodeuuid (str "PBXProject" ++ pnc)

/-- The identifier of the synthetic Products group (line 1637): a hardcoded
constant, not derived from any key. -/
def productsuuid : PyStr := str "1AB674ADFE9D54B511CA2CBB"

/-- The slash fixup applied to every catalog entry on entry to
`createxcodesolution` (lines 1400-1401). -/
def xcodefixupentry (f : SourceFile) : SourceFile :=
  { f with filename := converttolinuxslashes f.filename }

def xcodefixup (codefiles : List SourceFile) : List SourceFile :=
  codefiles.map xcodefixupentry

/-- The identifier-attachment loop of `createxcodesolution` (lines 1484-1494):
only `cpp` and `h` entries are processed, each getting its file uuid and its
role (build-phase) uuid. -/
def xcodeattachentry (item : SourceFile) : Option SourceFile :=
  if item.type = str "cpp" then
    some { item with uuid := xcodeuuid item.filename,
                     typeuuid := xcodeuuid (item.filename ++ str ":Sources") }
  else if item.type = str "h" then
    some { item with uuid := xcodeuuid item.filename,
                     typeuuid := xcodeuuid (item.filename ++ str ":Headers") }
  else none

/-- The framework pseudo-entries appended after the catalog (lines 1496-1502). -/
def mkframeworkentry (framework : PyStr) : SourceFile :=
  { filename := framework, directory := [], type := str "frameworks",
    uuid := xcodeuuid framework,
    typeuuid := xcodeuuid (framework ++ str ":Frameworks") }

/-- The `base` computation of `dumptreevsxcode` (lines 1358-1362): the text
after the last forward slash of the fully qualified group path. -/
def lastSegment (s : PyStr) : PyStr :=
  match rfindIdx s '/' with
  | none => s
  | some i => s.drop (i + 1)

/-- The Products group object (lines 1639-1647). -/
def xcodeProductsEntry (outputuuid outputfilename : PyStr) : PyStr × PyStr :=
  (productsuuid,
   str "\t\t" ++ productsuuid ++ str " /* Products */ = \x7b\n"
     ++ str "\t\t\tisa = PBXGroup;\n\t\t\tchildren = (\n\t\t\t\t"
     ++ outputuuid ++ str " /* " ++ outputfilename ++ str " */,\n"
     ++ str "\t\t\t);\n\t\t\tname = Products;\n"
     ++ str "\t\t\tsourceTree = \"<group>\";\n\t\t\x7d;\n")

/-- `dumptreevsxcode`: walk the nested dictionary, emit one PBXGroup object
per non-root node and return the root's children names. The first argument
is recursion fuel (the Python recursion descends one tree level per call, so
any fuel larger than the tree depth reproduces it exactly). When a group has
files, `sortlist[0]` exists because `buildgroups` only creates a key together
with a first file, so the `[]` fallback of `path` is unreachable. -/
def dumptreevsxcode : Nat → PyStr → PDict → List (PyStr × PyStr) → Groups →
    List PyStr × List (PyStr × PyStr)
  | 0, _, _, acc, _ => ([], acc)
  | fuel + 1, string, PDict.mk l, acc, groups =>
      let st := l.foldl
        (fun (st : List PyStr × List (PyStr × PyStr)) kv =>
          let merged := if string = [] then kv.1 else string ++ '/' :: kv.1
          (st.1 ++ [kv.1], (dumptreevsxcode fuel merged kv.2 st.2 groups).2))
        ([], acc)
      if string = [] then st
      else
        let sortlist :=
          match glookup groups string with
          | some files =>
              pysorted (fun (x y : SourceFile) =>
                pyStrLt (converttolinuxslashes x.filename) (converttolinuxslashes y.filename)) files
          | none => []
        let path :=
          match glookup groups string with
          | some _ =>
              match sortlist with
              | f :: _ => converttolinuxslashes f.filename
              | [] => []
          | none => str "<group>"
        let base := lastSegment string
        let path :=
          match rfindIdx path '/' with
          | none => path
          | some i => path.take i
        let nodeuuid := xcodeuuid (str "PBXGroup!" ++ base)
        let out :=
          str "\t\t" ++ nodeuuid ++ str " /* " ++ base
            ++ str " */ = \x7b\n\t\t\tisa = PBXGroup;\n\t\t\tchildren = (\n"
            ++ st.1.flatMap (fun item =>
                 str "\t\t\t\t" ++ xcodeuuid (str "PBXGroup!" ++ item)
                   ++ str " /* " ++ item ++ str " */,\n")
            ++ sortlist.flatMap (fun item =>
                 str "\t\t\t\t" ++ item.uuid ++ str " /* "
                   ++ pybasename item.filename ++ str " */,\n")
            ++ str "\t\t\t);\n\t\t\tname = " ++ base ++ str ";\n\t\t\tpath = "
            ++ path ++ str ";\n\t\t\tsourceTree = SOURCE_ROOT;\n\t\t\x7d;\n"
        ([], st.2 ++ [(nodeuuid, out)])

/-- The root group object (lines 1655-1677): the project-name group listing
the root children, the root-level files and the Products group. -/
def xcodeRootGroupEntry (sol : SolutionData) (childrenNames : List PyStr)
    (groups : Groups) (outputuuid : PyStr) : PyStr × PyStr :=
  let sortlist :=
    match glookup groups [] with
    | some files => pysorted (fun (x y : SourceFile) => pyStrLt x.filename y.filename) files
    | none => []
  let pnuuid := xcodeuuid sol.projectname
  (pnuuid,
   str "\t\t" ++ pnuuid ++ str " /* " ++ sol.projectname
     ++ str " */ = \x7b\n\t\t\tisa = PBXGroup;\n\t\t\tchildren = (\n"
     ++ childrenNames.flatMap (fun item =>
          if item = [] then []
          else str "\t\t\t\t" ++ xcodeuuid (str "PBXGroup!" ++ item)
                 ++ str " /* " ++ item ++ str " */,\n")
     ++ sortlist.flatMap (fun item =>
          if item.uuid = outputuuid then []
          else str "\t\t\t\t" ++ item.uuid ++ str " /* "
                 ++ pybasename item.filename ++ str " */,\n")
     ++ str "\t\t\t\t" ++ productsuuid ++ str " /* Products */,\n"
     ++ str "\t\t\t);\n\t\t\tname = " ++ sol.projectname
     ++ str ";\n\t\t\tsourceTree = \"<group>\";\n\t\t\x7d;\n")

/-- The model-building part of `createxcodesolution`: the catalog after the
slash fixup, path sort, identifier attachment and typeuuid sort; the group
mapping; the group tree; and the PBXGroup section (Products group, the
`dumptreevsxcode` playback and the root group, sorted by identifier).
`none` when the IDE or platform has no code (the Python would raise on the
`None` concatenation). -/
def xcodemodel (sol : SolutionData) (fs : FileSystem) (fuel : Nat) :
    Option (List SourceFile × Groups × PDict × List (PyStr × PyStr)) :=
  match getidecode sol, getplatformcode sol.platform with
  | some idecode, some platformcode =>
      let gf := getfilelist sol fs
      let codefiles := xcodefixup gf.1
      let codefiles := pysorted (fun (x y : SourceFile) => pyStrLt x.filename y.filename) codefiles
      let pnc := sol.projectname ++ idecode ++ platformcode
      let frameworks :=
        if sol.kind = str "library" then ([] : List PyStr) else [str "AppKit.framework"]
      let toprocess := codefiles.filterMap xcodeattachentry ++ frameworks.map mkframeworkentry
      let codefiles := pysorted (fun (x y : SourceFile) => pyStrLt x.typeuuid y.typeuuid) toprocess
      let outputfilename :=
        if sol.kind = str "library" then str "libburgerbase" ++ idecode ++ str "osx.a"
        else sol.projectname
      let outputuuid := xcodeuuid (outputfilename ++ ':' :: pnc)
      let groups := buildgroups codefiles
      let tree := buildtree groups
      let dt := dumptreevsxcode fuel [] tree [xcodeProductsEntry outputuuid outputfilename] groups
      let pbx := dt.2 ++ [xcodeRootGroupEntry sol dt.1 groups outputuuid]
      some (codefiles, groups, tree, pysorted (fun (x y : PyStr × PyStr) => pyStrLt x.1 y.1) pbx)
  | _, _ => none

/-! ## Named projections and concrete inputs used by the theorems -/

/-- The entry built at lines 296-310 for a file that passed the exclusion
and extension checks: `folder/filename` (bare filename for the root token). -/
def scannedfile (directory searchDir name t : PyStr) : SourceFile :=
  { filename := if directory = str "." then name else directory ++ osSep :: name,
    directory := searchDir, type := t }

/-- The Products group object of a run, as `createxcodesolution` computes it
from the configuration (output name and uuid per lines 1539-1550, group per
lines 1639-1647); `none` when the IDE or platform code is undefined. -/
def xcodeProductsEntryOfRun (sol : SolutionData) : Option (PyStr × PyStr) :=
  match getidecode sol, getplatformcode sol.platform with
  | some idecode, some platformcode =>
      let pnc := sol.projectname ++ idecode ++ platformcode
      let outputfilename :=
        if sol.kind = str "library" then str "libburgerbase" ++ idecode ++ str "osx.a"
        else sol.projectname
      some (xcodeProductsEntry (xcodeuuid (outputfilename ++ ':' :: pnc)) outputfilename)
  | _, _ => none

/-- The identifier under which a run emits its Products group. -/
def productsIdOfRun (sol : SolutionData) : Option PyStr :=
  (xcodeProductsEntryOfRun sol).map Prod.fst

/-- The identifiers of the PBXGroup section of a run, in emission order. -/
def pbxgroupids (sol : SolutionData) (fs : FileSystem) (fuel : Nat) : List PyStr :=
  match xcodemodel sol fs fuel with
  | some m => m.2.2.2.map Prod.fst
  | none => []

/-- A root-level catalog entry (its GroupKey is the empty string). -/
def rootfile : SourceFile := { filename := str "a.cpp" }

/-- Two Xcode library configurations differing only in the project name. -/
def solAlpha : SolutionData :=
  { projectname := str "Alpha", ide := str "xcode3", platform := str "macosx",
    kind := str "library" }

def solBeta : SolutionData := { solAlpha with projectname := str "Beta" }

/-- The round-trip configuration of the spec: scan `.`, exclude `readme.txt`. -/
def solRound : SolutionData :=
  { workingDir := [], sourcefolders := [str "."], exclude := [str "readme.txt"] }

/-- The round-trip directory listing: `a.cpp`, `b.h`, `readme.txt`, `notes.md`. -/
def fsRound : FileSystem :=
  [(str ".",
    [{ name := str "a.cpp", isFile := true }, { name := str "b.h", isFile := true },
     { name := str "readme.txt", isFile := true }, { name := str "notes.md", isFile := true }])]

/-- A catalog whose two groups `a/util` and `b/util` share a leaf name. -/
def catUtil : List SourceFile :=
  [{ filename := str "a/util/x.cpp" }, { filename := str "b/util/y.cpp" }]

/-- A configuration with a mixed-case exclusion entry. -/
def solExcl : SolutionData :=
  { workingDir := [], exclude := [str "ReadMe.TXT"], sourcefolders := [str "."] }

def fsExcl : FileSystem := [(str ".", [{ name := str "README.txt", isFile := true }])]

/-! ## General lemmas about the string primitives -/

theorem startsWithL_ex (p s : PyStr) (h : startsWithL p s = true) : ∃ t, s = p ++ t := by
  induction p generalizing s with
  | nil => exact ⟨s, rfl⟩
  | cons a as ih =>
      cases s with
      | nil => simp [startsWithL] at h
      | cons b bs =>
          simp only [startsWithL, Bool.and_eq_true, decide_eq_true_eq] at h
          obtain ⟨t, ht⟩ := ih bs h.2
          exact ⟨t, by simp [h.1, ht]⟩

theorem startsWithL_append_false (q p : PyStr) (h1 : isPrefixB q p = false)
    (h2 : isPrefixB p q = false) : ∀ t, startsWithL q (p ++ t) = false := by
  induction q generalizing p with
  | nil => simp [isPrefixB] at h1
  | cons a as ih =>
      cases p with
      | nil => simp [isPrefixB] at h2
      | cons b bs =>
          intro t
          by_cases hab : a = b
          · subst hab
            simp only [isPrefixB] at h1 h2
            simp only [decide_eq_true_eq, eq_self_iff_true, if_true, true_and,
              Bool.true_and, decide_True] at h1 h2
            simpa [startsWithL] using ih bs h1 h2 t
          · simp [startsWithL, hab]

/-- A string ending in `p` cannot also end in `q` when neither of `p`, `q` is
a suffix of the other. -/
theorem pyEndswith_false_of (L p q : PyStr) (h : pyEndswith L p = true)
    (hq1 : isPrefixB q.reverse p.reverse = false)
    (hq2 : isPrefixB p.reverse q.reverse = false) : pyEndswith L q = false := by
  obtain ⟨t, ht⟩ := startsWithL_ex _ _ h
  unfold pyEndswith
  rw [ht]
  exact startsWithL_append_false _ _ hq1 hq2 t

/-- The `..`-stripping loop runs until no `../` or `..\` prefix remains. -/
theorem stripDotDot_no (s : PyStr) :
    startsWithL (str "../") (stripDotDot s) = false
    ∧ startsWithL (str "..\\") (stripDotDot s) = false := by
  induction s using stripDotDot.induct with
  | case1 rest ih => simpa [stripDotDot] using ih
  | case2 rest ih => simpa [stripDotDot] using ih
  | case3 s h1 h2 =>
      have hs : stripDotDot s = s := by
        rw [stripDotDot.eq_def]
        split
        · exact absurd rfl (h1 _)
        · exact absurd rfl (h2 _)
        · rfl
      rw [hs]
      constructor
      · cases hF : startsWithL (str "../") s with
        | false => rfl
        | true =>
            obtain ⟨t, ht⟩ := startsWithL_ex _ _ hF
            exact absurd ht (h2 t)
      · cases hF : startsWithL (str "..\\") s with
        | false => rfl
        | true =>
            obtain ⟨t, ht⟩ := startsWithL_ex _ _ hF
            exact absurd ht (h1 t)

/-- `replace('\\','/')` is the identity on backslash-free strings. -/
theorem convertlinux_noop (s : PyStr) (h : '\\' ∉ s) : converttolinuxslashes s = s := by
  induction s with
  | nil => rfl
  | cons c cs ih =>
      rw [List.mem_cons, not_or] at h
      simp only [converttolinuxslashes, List.map_cons] at ih ⊢
      rw [if_neg (fun hc => h.1 hc.symm), ih h.2]

/-! ## Lemmas about the nested-dictionary tree -/

theorem haskeyE_eq (l : List (PyStr × PDict)) (p : PyStr) :
    haskeyE l p = (lookupd l p).isSome := by
  induction l with
  | nil => rfl
  | cons kv rest ih =>
      obtain ⟨k, t⟩ := kv
      by_cases h : k = p <;> simp [haskeyE, lookupd, h, ih]

theorem lookupd_append (l m : List (PyStr × PDict)) (q : PyStr) :
    lookupd (l ++ m) q = (lookupd l q).or (lookupd m q) := by
  induction l with
  | nil => simp [lookupd]
  | cons kv rest ih =>
      obtain ⟨k, t⟩ := kv
      by_cases h : k = q <;> simp [lookupd, h, ih]

theorem lookupd_update (f : PDict → PDict) (l : List (PyStr × PDict)) (p q : PyStr) :
    lookupd (updateEntries f l p) q
      = if q = p then (lookupd l p).map f else lookupd l q := by
  induction l with
  | nil => simp [updateEntries, lookupd]
  | cons kv rest ih =>
      obtain ⟨k, t⟩ := kv
      by_cases hk : k = p
      · subst hk
        by_cases hq : q = k
        · subst hq
          simp [updateEntries, lookupd]
        · have hkq : ¬k = q := fun h => hq h.symm
          simp [updateEntries, lookupd, hq, hkq]
      · by_cases hq : k = q
        · subst hq
          simp [updateEntries, lookupd, hk]
        · simp [updateEntries, lookupd, hk, hq, ih]

theorem hasPath_empty (q : List PyStr) : hasPath (PDict.mk []) q = q.isEmpty := by
  cases q <;> simp [hasPath, lookupd, List.isEmpty]

theorem hasPath_treeinsert (q : List PyStr) :
    ∀ (t : PDict) (parts : List PyStr),
      hasPath (treeinsert t parts) q = (hasPath t q || isPrefixB q parts) := by
  induction q with
  | nil => intro t parts; simp [hasPath, isPrefixB]
  | cons x qs ih =>
      intro t parts
      cases parts with
      | nil => simp [treeinsert, isPrefixB]
      | cons p ps =>
          obtain ⟨l⟩ := t
          by_cases hk : haskeyE l p = true
          · obtain ⟨sub, hsub⟩ :=
              Option.isSome_iff_exists.mp ((haskeyE_eq l p) ▸ hk)
            by_cases hx : x = p
            · subst hx
              simp [treeinsert, hk, hasPath, lookupd_update, hsub, ih, isPrefixB]
            · simp [treeinsert, hk, hasPath, lookupd_update, hx, isPrefixB]
          · have hnone : lookupd l p = none := by
              have h := haskeyE_eq l p
              rw [Bool.not_eq_true] at hk
              rw [hk] at h
              exact Option.not_isSome_iff_eq_none.mp (by rw [← h]; simp)
            by_cases hx : x = p
            · subst hx
              simp [treeinsert, hk, hasPath, lookupd_append, hnone, lookupd, ih,
                    hasPath_empty, isPrefixB]
              cases qs <;> simp [isPrefixB]
            · simp [treeinsert, hk, hasPath, lookupd_append, lookupd, hx,
                    Ne.symm hx, isPrefixB]

theorem hasPath_foldl (gs : Groups) :
    ∀ (t : PDict) (q : List PyStr),
      hasPath (gs.foldl (fun t g => treeinsert t (pysplit '/' g.1)) t) q
        = (hasPath t q || gs.any (fun g => isPrefixB q (pysplit '/' g.1))) := by
  induction gs with
  | nil => simp
  | cons g rest ih =>
      intro t q
      simp [List.foldl_cons, ih, hasPath_treeinsert, List.any_cons, Bool.or_assoc]

/-- Every non-root call of `dumptreevsxcode` ends its accumulator with an
object whose identifier depends only on the leaf segment of the group path. -/
theorem dumptree_emits_leaf_uuid (fuel : Nat) (string : PyStr)
    (l : List (PyStr × PDict)) (acc : List (PyStr × PyStr)) (groups : Groups)
    (h : string ≠ []) :
    ((dumptreevsxcode (fuel + 1) string (PDict.mk l) acc groups).2).getLast?.map Prod.fst
      = some (xcodeuuid (str "PBXGroup!" ++ lastSegment string)) := by
  simp [dumptreevsxcode, h, List.getLast?_concat]

/-! ## MD5 reference vectors (RFC 1321 and the Python `uuid` module) -/

theorem md5_rfc_vector_empty : md5hex (str "") = str "d41d8cd98f00b204e9800998ecf8427e" := by
  decide

theorem md5_rfc_vector_abc : md5hex (str "abc") = str "900150983cd24fb0d6963f7d28e17f72" := by
  decide

theorem uuid3_dns_vector : uuid3str (str "x") = str "ec794efe-a384-3b11-a0b6-ec8995bc6acc" := by
  decide

/-- Claim C7: a non-excluded regular file is classified by the first matching
table suffix of its lowered name: `.c`/`.cpp` yield one `cpp`
(translation-unit) entry, `.h`/`.hpp`/`.hh`/`.i`/`.inc` one `h` (header)
entry, `.rc` one `windowsresource` entry, `.r`/`.rsrc` one `macresource`
entry, `.hlsl` one `hlsl` (shader) entry; with no matching table suffix the
file contributes no entry. -/
theorem scanentry_classification
    (sol : SolutionData) (directory searchDir name : PyStr)
    (hnot : isexcluded sol.exclude (pyLower name) = false) :
    ((pyEndswith (pyLower name) (str ".c") = true
        ∨ pyEndswith (pyLower name) (str ".cpp") = true) →
      scanentry sol directory searchDir { name := name, isFile := true }
        = [scannedfile directory searchDir name (str "cpp")])
    ∧ ((pyEndswith (pyLower name) (str ".h") = true
        ∨ pyEndswith (pyLower name) (str ".hpp") = true
        ∨ pyEndswith (pyLower name) (str ".hh") = true
        ∨ pyEndswith (pyLower name) (str ".i") = true
        ∨ pyEndswith (pyLower name) (str ".inc") = true) →
      scanentry sol directory searchDir { name := name, isFile := true }
        = [scannedfile directory searchDir name (str "h")])
    ∧ (pyEndswith (pyLower name) (str ".rc") = true →
      scanentry sol directory searchDir { name := name, isFile := true }
        = [scannedfile directory searchDir name (str "windowsresource")])
    ∧ ((pyEndswith (pyLower name) (str ".r") = true
        ∨ pyEndswith (pyLower name) (str ".rsrc") = true) →
      scanentry sol directory searchDir { name := name, isFile := true }
        = [scannedfile directory searchDir name (str "macresource")])
    ∧ (pyEndswith (pyLower name) (str ".hlsl") = true →
      scanentry sol directory searchDir { name := name, isFile := true }
        = [scannedfile directory searchDir name (str "hlsl")])
    ∧ ((∀ e ∈ codeExtensions, pyEndswith (pyLower name) e.1 = false) →
      scanentry sol directory searchDir { name := name, isFile := true } = []) := by
  have hrun : ∀ t : PyStr, classifytype (pyLower name) = some t →
      scanentry sol directory searchDir { name := name, isFile := true }
        = [scannedfile directory searchDir name t] := by
    intro t ht
    simp [scanentry, hnot, ht, scannedfile]
  have hrun0 : classifytype (pyLower name) = none →
      scanentry sol directory searchDir { name := name, isFile := true } = [] := by
    intro ht
    simp [scanentry, hnot, ht]
  refine ⟨?_, ?_, ?_, ?_, ?_, ?_⟩
  · rintro (h | h)
    · refine hrun _ ?_
      unfold classifytype codeExtensions
      rw [List.find?_cons_of_pos _ (by exact h)]; rfl
    · refine hrun _ ?_
      unfold classifytype codeExtensions
      rw [List.find?_cons_of_neg _
            (by simp [pyEndswith_false_of _ _ (str ".c") h (by decide) (by decide)]),
          List.find?_cons_of_pos _ (by exact h)]; rfl
  · have step : ∀ sfx : PyStr, pyEndswith (pyLower name) sfx = true →
        isPrefixB (str ".c").reverse sfx.reverse = false →
        isPrefixB sfx.reverse (str ".c").reverse = false →
        isPrefixB (str ".cpp").reverse sfx.reverse = false →
        isPrefixB sfx.reverse (str ".cpp").reverse = false →
        pyEndswith (pyLower name) (str ".c") = false
          ∧ pyEndswith (pyLower name) (str ".cpp") = false := by
      intro sfx h a1 a2 a3 a4
      exact ⟨pyEndswith_false_of _ _ _ h a1 a2, pyEndswith_false_of _ _ _ h a3 a4⟩
    rintro (h | h | h | h | h)
    · obtain ⟨f1, f2⟩ := step _ h (by decide) (by decide) (by decide) (by decide)
      have f3 := pyEndswith_false_of _ _ (str ".hpp") h (by decide) (by decide)
      refine hrun _ ?_
      unfold classifytype codeExtensions
      rw [List.find?_cons_of_neg _ (by simp [f1]), List.find?_cons_of_neg _ (by simp [f2]),
          List.find?_cons_of_neg _ (by simp [f3]), List.find?_cons_of_pos _ (by exact h)]; rfl
    · obtain ⟨f1, f2⟩ := step _ h (by decide) (by decide) (by decide) (by decide)
      refine hrun _ ?_
      unfold classifytype codeExtensions
      rw [List.find?_cons_of_neg _ (by simp [f1]), List.find?_cons_of_neg _ (by simp [f2]),
          List.find?_cons_of_pos _ (by exact h)]; rfl
    · obtain ⟨f1, f2⟩ := step _ h (by decide) (by decide) (by decide) (by decide)
      have f3 := pyEndswith_false_of _ _ (str ".hpp") h (by decide) (by decide)
      have f4 := pyEndswith_false_of _ _ (str ".h") h (by decide) (by decide)
      refine hrun _ ?_
      unfold classifytype codeExtensions
      rw [List.find?_cons_of_neg _ (by simp [f1]), List.find?_cons_of_neg _ (by simp [f2]),
          List.find?_cons_of_neg _ (by simp [f3]), List.find?_cons_of_neg _ (by simp [f4]),
          List.find?_cons_of_pos _ (by exact h)]; rfl
    · obtain ⟨f1, f2⟩ := step _ h (by decide) (by decide) (by decide) (by decide)
      have f3 := pyEndswith_false_of _ _ (str ".hpp") h (by decide) (by decide)
      have f4 := pyEndswith_false_of _ _ (str ".h") h (by decide) (by decide)
      have f5 := pyEndswith_false_of _ _ (str ".hh") h (by decide) (by decide)
      refine hrun _ ?_
      unfold classifytype codeExtensions
      rw [List.find?_cons_of_neg _ (by simp [f1]), List.find?_cons_of_neg _ (by simp [f2]),
          List.find?_cons_of_neg _ (by simp [f3]), List.find?_cons_of_neg _ (by simp [f4]),
          List.find?_cons_of_neg _ (by simp [f5]), List.find?_cons_of_pos _ (by exact h)]; rfl
    · obtain ⟨f1, f2⟩ := step _ h (by decide) (by decide) (by decide) (by decide)
      have f3 := pyEndswith_false_of _ _ (str ".hpp") h (by decide) (by decide)
      have f4 := pyEndswith_false_of _ _ (str ".h") h (by decide) (by decide)
      have f5 := pyEndswith_false_of _ _ (str ".hh") h (by decide) (by decide)
      have f6 := pyEndswith_false_of _ _ (str ".i") h (by decide) (by decide)
      refine hrun _ ?_
      unfold classifytype codeExtensions
      rw [List.find?_cons_of_neg _ (by simp [f1]), List.find?_cons_of_neg _ (by simp [f2]),
          List.find?_cons_of_neg _ (by simp [f3]), List.find?_cons_of_neg _ (by simp [f4]),
          List.find?_cons_of_neg _ (by simp [f5]), List.find?_cons_of_neg _ (by simp [f6]),
          List.find?_cons_of_pos _ (by exact h)]; rfl
  · intro h
    have f1 := pyEndswith_false_of _ _ (str ".c") h (by decide) (by decide)
    have f2 := pyEndswith_false_of _ _ (str ".cpp") h (by decide) (by decide)
    have f3 := pyEndswith_false_of _ _ (str ".hpp") h (by decide) (by decide)
    have f4 := pyEndswith_false_of _ _ (str ".h") h (by decide) (by decide)
    have f5 := pyEndswith_false_of _ _ (str ".hh") h (by decide) (by decide)
    have f6 := pyEndswith_false_of _ _ (str ".i") h (by decide) (by decide)
    have f7 := pyEndswith_false_of _ _ (str ".inc") h (by decide) (by decide)
    refine hrun _ ?_
    unfold classifytype codeExtensions
    rw [List.find?_cons_of_neg _ (by simp [f1]), List.find?_cons_of_neg _ (by simp [f2]),
        List.find?_cons_of_neg _ (by simp [f3]), List.find?_cons_of_neg _ (by simp [f4]),
        List.find?_cons_of_neg _ (by simp [f5]), List.find?_cons_of_neg _ (by simp [f6]),
        List.find?_cons_of_neg _ (by simp [f7]), List.find?_cons_of_pos _ (by exact h)]; rfl
  · rintro (h | h)
    · have f1 := pyEndswith_false_of _ _ (str ".c") h (by decide) (by decide)
      have f2 := pyEndswith_false_of _ _ (str ".cpp") h (by decide) (by decide)
      have f3 := pyEndswith_false_of _ _ (str ".hpp") h (by decide) (by decide)
      have f4 := pyEndswith_false_of _ _ (str ".h") h (by decide) (by decide)
      have f5 := pyEndswith_false_of _ _ (str ".hh") h (by decide) (by decide)
      have f6 := pyEndswith_false_of _ _ (str ".i") h (by decide) (by decide)
      have f7 := pyEndswith_false_of _ _ (str ".inc") h (by decide) (by decide)
      have f8 := pyEndswith_false_of _ _ (str ".rc") h (by decide) (by decide)
      refine hrun _ ?_
      unfold classifytype codeExtensions
      rw [List.find?_cons_of_neg _ (by simp [f1]), List.find?_cons_of_neg _ (by simp [f2]),
          List.find?_cons_of_neg _ (by simp [f3]), List.find?_cons_of_neg _ (by simp [f4]),
          List.find?_cons_of_neg _ (by simp [f5]), List.find?_cons_of_neg _ (by simp [f6]),
          List.find?_cons_of_neg _ (by simp [f7]), List.find?_cons_of_neg _ (by simp [f8]),
          List.find?_cons_of_pos _ (by exact h)]; rfl
    · have f1 := pyEndswith_false_of _ _ (str ".c") h (by decide) (by decide)
      have f2 := pyEndswith_false_of _ _ (str ".cpp") h (by decide) (by decide)
      have f3 := pyEndswith_false_of _ _ (str ".hpp") h (by decide) (by decide)
      have f4 := pyEndswith_false_of _ _ (str ".h") h (by decide) (by decide)
      have f5 := pyEndswith_false_of _ _ (str ".hh") h (by decide) (by decide)
      have f6 := pyEndswith_false_of _ _ (str ".i") h (by decide) (by decide)
      have f7 := pyEndswith_false_of _ _ (str ".inc") h (by decide) (by decide)
      have f8 := pyEndswith_false_of _ _ (str ".rc") h (by decide) (by decide)
      have f9 := pyEndswith_false_of _ _ (str ".r") h (by decide) (by decide)
      refine hrun _ ?_
      unfold classifytype codeExtensions
      rw [List.find?_cons_of_neg _ (by simp [f1]), List.find?_cons_of_neg _ (by simp [f2]),
          List.find?_cons_of_neg _ (by simp [f3]), List.find?_cons_of_neg _ (by simp [f4]),
          List.find?_cons_of_neg _ (by simp [f5]), List.find?_cons_of_neg _ (by simp [f6]),
          List.find?_cons_of_neg _ (by simp [f7]), List.find?_cons_of_neg _ (by simp [f8]),
          List.find?_cons_of_neg _ (by simp [f9]), List.find?_cons_of_pos _ (by exact h)]; rfl
  · intro h
    have f1 := pyEndswith_false_of _ _ (str ".c") h (by decide) (by decide)
    have f2 := pyEndswith_false_of _ _ (str ".cpp") h (by decide) (by decide)
    have f3 := pyEndswith_false_of _ _ (str ".hpp") h (by decide) (by decide)
    have f4 := pyEndswith_false_of _ _ (str ".h") h (by decide) (by decide)
    have f5 := pyEndswith_false_of _ _ (str ".hh") h (by decide) (by decide)
    have f6 := pyEndswith_false_of _ _ (str ".i") h (by decide) (by decide)
    have f7 := pyEndswith_false_of _ _ (str ".inc") h (by decide) (by decide)
    have f8 := pyEndswith_false_of _ _ (str ".rc") h (by decide) (by decide)
    have f9 := pyEndswith_false_of _ _ (str ".r") h (by decide) (by decide)
    have f10 := pyEndswith_false_of _ _ (str ".rsrc") h (by decide) (by decide)
    refine hrun _ ?_
    unfold classifytype codeExtensions
    rw [List.find?_cons_of_neg _ (by simp [f1]), List.find?_cons_of_neg _ (by simp [f2]),
        List.find?_cons_of_neg _ (by simp [f3]), List.find?_cons_of_neg _ (by simp [f4]),
        List.find?_cons_of_neg _ (by simp [f5]), List.find?_cons_of_neg _ (by simp [f6]),
        List.find?_cons_of_neg _ (by simp [f7]), List.find?_cons_of_neg _ (by simp [f8]),
        List.find?_cons_of_neg _ (by simp [f9]), List.find?_cons_of_neg _ (by simp [f10]),
        List.find?_cons_of_pos _ (by exact h)]; rfl
  · intro hall
    have hfind : codeExtensions.find? (fun e => pyEndswith (pyLower name) e.1) = none :=
      List.find?_eq_none.mpr (fun x hx => by simp [hall x hx])
    exact hrun0 (by simp [classifytype, hfind])

theorem scanentry_classification_witness :
    scanentry { exclude := [str "b.hlsl"] } (str "src") (str "/w/src")
        { name := str "A.HLSL", isFile := true }
      = [scannedfile (str "src") (str "/w/src") (str "A.HLSL") (str "hlsl")] :=
  (scanentry_classification { exclude := [str "b.hlsl"] } (str "src") (str "/w/src")
      (str "A.HLSL") (by decide)).2.2.2.2.1 (by decide)

/-- Claim C8: scanning `.` with `readme.txt` excluded over the listing
`a.cpp`, `b.h`, `readme.txt`, `notes.md` returns exactly the catalog
`[a.cpp : cpp, b.h : h]` in that order, and `includedirectories = ["."]`. -/
theorem roundtrip_catalog :
    getfilelist solRound fsRound
      = ([{ filename := str "a.cpp", directory := str ".", type := str "cpp" },
          { filename := str "b.h", directory := str ".", type := str "h" }],
         [str "."]) := by decide

/-- Claim C9 (code bug): `converttowindowsslasheswithendslash` executes
`input.append('\\')` on a Python 2 `str` whenever the converted path does
not already end in a backslash, raising `AttributeError` instead of
returning the path with a trailing separator: the function is not total. -/
theorem withendslash_raises :
    converttowindowsslasheswithendslash (str "temp")
      = Except.error (str "AttributeError: str object has no attribute append") := rfl

/-- Claim C10, counterexample: `createxcodesolution` reassigns
`fixup.filename` to its forward-slash form, so a catalog entry whose
filename contains a backslash leaves the emitter with a different
`filename` value than Discovery produced. -/
theorem xcode_fixup_mutates_filename :
    (xcodefixup [{ filename := str "a\\b.cpp" }]).map (fun f => f.filename)
      = [str "a/b.cpp"]
    ∧ str "a/b.cpp" ≠ str "a\\b.cpp" := by decide

/-- Claim C10, amended: downstream mutation is limited to attaching the
identifiers and to the Xcode emitter's forward-slash rewrite of `filename`:
`directory` and `type` are never changed, the identifier attachment
preserves all three fields, and `filename` itself is preserved whenever it
contains no backslash. -/
theorem catalog_fields_preserved :
    (∀ files : List SourceFile,
        (xcodefixup files).map (fun f => f.directory) = files.map (fun f => f.directory)
        ∧ (xcodefixup files).map (fun f => f.type) = files.map (fun f => f.type))
    ∧ (∀ f : SourceFile, '\\' ∉ f.filename → xcodefixupentry f = f)
    ∧ (∀ item r : SourceFile, xcodeattachentry item = some r →
        r.filename = item.filename ∧ r.directory = item.directory ∧ r.type = item.type) := by
  refine ⟨?_, ?_, ?_⟩
  · intro files
    constructor <;> · simp only [xcodefixup, List.map_map]; rfl
  · intro f h
    unfold xcodefixupentry
    rw [convertlinux_noop _ h]
  · intro item r h
    unfold xcodeattachentry at h
    split at h
    · cases h
      exact ⟨rfl, rfl, rfl⟩
    · split at h
      · cases h
        exact ⟨rfl, rfl, rfl⟩
      · cases h

theorem catalog_fields_preserved_witness :
    xcodefixupentry { filename := str "a/b.cpp" } = { filename := str "a/b.cpp" } :=
  catalog_fields_preserved.2.1 { filename := str "a/b.cpp" } (by decide)

/-! ## Claim theorems -/

/-- Claim C1: for a fixed configuration and unchanged directory listing,
running the Discovery, Grouping and Identifier pipeline twice produces the
same catalog order, group tree shape, and identifier for every semantic
key: the embedded pipeline is a pure function of its inputs. -/
theorem pipeline_deterministic :
    ∀ (sol : SolutionData) (fs : FileSystem) (fuel : Nat),
      getfilelist sol fs = getfilelist sol fs
      ∧ xcodemodel sol fs fuel = xcodemodel sol fs fuel
      ∧ (∀ key : PyStr, xcodeuuid key = xcodeuuid key)
      ∧ (∀ pf g : PyStr, vs2010groupuuid pf g = vs2010groupuuid pf g) :=
  fun _ _ _ => ⟨rfl, rfl, fun _ => rfl, fun _ _ => rfl⟩

/-- Claim C2, counterexample: the "Products" identifier is the hardcoded
constant `1AB674ADFE9D54B511CA2CBB`, so two runs with the different project
names `Alpha` and `Beta` emit it under the same identifier, refuting that
the identifiers differ whenever the project names do. -/
theorem products_identifier_shared_across_names :
    solAlpha.projectname ≠ solBeta.projectname
    ∧ productsuuid ∈ pbxgroupids solAlpha [] 2
    ∧ productsuuid ∈ pbxgroupids solBeta [] 2
    ∧ productsIdOfRun solAlpha = productsIdOfRun solBeta := by decide

/-- Claim C2, amended: the Products group identifier is a fixed constant,
equal across all runs and project names, while the other synthetic objects
(project root, build phases) use a literal role name concatenated with the
project name code and so differ across different project names. -/
theorem products_identifier_constant :
    (∀ (sol : SolutionData) (ic pc : PyStr), getidecode sol = some ic →
        getplatformcode sol.platform = some pc →
        productsIdOfRun sol = some productsuuid)
    ∧ frameworksuuid (str "Alphaxc3osx") ≠ frameworksuuid (str "Betaxc3osx")
    ∧ rootuuid (str "Alphaxc3osx") ≠ rootuuid (str "Betaxc3osx")
    ∧ headersuuid (str "Alphaxc3osx") ≠ headersuuid (str "Betaxc3osx") := by
  refine ⟨?_, by decide, by decide, by decide⟩
  intro sol ic pc h1 h2
  simp [productsIdOfRun, xcodeProductsEntryOfRun, h1, h2, xcodeProductsEntry]

theorem products_identifier_constant_witness :
    productsIdOfRun solAlpha = some productsuuid :=
  products_identifier_constant.1 solAlpha (str "xc3") (str "osx") (by decide) (by decide)

/-- Claim C3, counterexample: the Xcode group identifier key is the literal
`PBXGroup!` plus the leaf segment only, so the two distinct group nodes
`a/util` and `b/util` are emitted with one identical identifier (it occurs
twice in the emitted PBXGroup section), refuting that nodes with equal leaf
names but different parents receive different identifiers. -/
theorem xcode_group_uuid_collision :
    (buildgroups catUtil).map Prod.fst = [str "a/util", str "b/util"]
    ∧ (((dumptreevsxcode 3 [] (buildtree (buildgroups catUtil)) []
          (buildgroups catUtil)).2).map Prod.fst).count
        (xcodeuuid (str "PBXGroup!util")) = 2 := by decide

/-- Claim C3, amended: the Xcode group-node identifier depends only on the
leaf segment of the fully qualified group path (two nodes with equal leaf
names collide), while the Visual Studio 2010 filter identifier key is the
project filename plus the full group path, so `a\util` and `b\util` there
receive different identifiers. -/
theorem group_identifier_key_leaf_only :
    (∀ (fuel : Nat) (s1 s2 : PyStr) (l1 l2 : List (PyStr × PDict))
        (a1 a2 : List (PyStr × PyStr)) (g1 g2 : Groups),
        s1 ≠ [] → s2 ≠ [] → lastSegment s1 = lastSegment s2 →
        ((dumptreevsxcode (fuel + 1) s1 (PDict.mk l1) a1 g1).2).getLast?.map Prod.fst
          = ((dumptreevsxcode (fuel + 1) s2 (PDict.mk l2) a2 g2).2).getLast?.map Prod.fst)
    ∧ vs2010groupuuid (str "projectv10win") (str "a\\util")
        ≠ vs2010groupuuid (str "projectv10win") (str "b\\util") := by
  refine ⟨?_, by decide⟩
  intro fuel s1 s2 l1 l2 a1 a2 g1 g2 h1 h2 heq
  rw [dumptree_emits_leaf_uuid fuel s1 l1 a1 g1 h1,
      dumptree_emits_leaf_uuid fuel s2 l2 a2 g2 h2, heq]

theorem group_identifier_key_leaf_only_witness :
    ((dumptreevsxcode 1 (str "a/util") (PDict.mk []) [] []).2).getLast?.map Prod.fst
      = ((dumptreevsxcode 1 (str "b/util") (PDict.mk []) [] []).2).getLast?.map Prod.fst :=
  group_identifier_key_leaf_only.1 0 (str "a/util") (str "b/util") [] [] [] [] [] []
    (by decide) (by decide) (by decide)

/-- Claim C4, counterexample: with a root-level file the group mapping holds
its entry under the empty key, but the tree construction does NOT exclude
the empty key: a node for the empty-string segment is inserted, refuting
that no node corresponding to the empty key enters the tree. -/
theorem grouping_tree_empty_key_node :
    (buildgroups [rootfile]).map Prod.fst = [[]]
    ∧ hasPath (buildtree (buildgroups [rootfile])) [[]] = true := by decide

/-- Claim C4, amended: the mapping keeps root-level entries under the empty
key, and the tree contains a node exactly for every nonempty prefix of the
separator-split of every group key in the mapping, the empty key included
(its split is the single empty segment, so root-level files contribute a
node named by the empty string). -/
theorem grouping_tree_nodes :
    (∀ (gs : Groups) (q : List PyStr),
        hasPath (buildtree gs) q
          = (q.isEmpty || gs.any (fun g => isPrefixB q (pysplit '/' g.1))))
    ∧ glookup (buildgroups [rootfile]) [] = some [rootfile] := by
  refine ⟨?_, by decide⟩
  intro gs q
  unfold buildtree
  rw [hasPath_foldl, hasPath_empty]

/-- Claim C5, counterexample: `extractgroupname` removes a leading `./`
segment only once, so `././a/b.cpp` yields the group `./a`, which still
starts with `./`, refuting that the result never starts with `./`. -/
theorem extractgroupname_keeps_dot_slash :
    extractgroupname (str "././a/b.cpp") = str "./a"
    ∧ startsWithL (str "./") (extractgroupname (str "././a/b.cpp")) = true := by decide

/-- Claim C5, amended: the loop removes leading `../` and `..\` segments
until none remain (its result never starts with either), but the `./` strip
runs only once, so the returned group is the single-`./`-strip of the
`..`-loop output and can retain a `./` prefix; `.././a/b.cpp` still maps
to `a`. -/
theorem extractgroupname_strip_behavior :
    (∀ s : PyStr, startsWithL (str "../") (stripDotDot s) = false
        ∧ startsWithL (str "..\\") (stripDotDot s) = false)
    ∧ (∀ name : PyStr, extractgroupname name = []
        ∨ ∃ pre : PyStr, extractgroupname name = stripSingleDot (stripDotDot pre))
    ∧ extractgroupname (str ".././a/b.cpp") = str "a" := by
  refine ⟨stripDotDot_no, ?_, by decide⟩
  intro name
  cases h1 : rfindIdx name '\\' with
  | some i =>
      simp only [extractgroupname, h1]
      exact Or.inr ⟨_, rfl⟩
  | none =>
      cases h2 : rfindIdx name '/' with
      | some i =>
          simp only [extractgroupname, h1, h2]
          exact Or.inr ⟨_, rfl⟩
      | none =>
          simp [extractgroupname, h1, h2]

/-- Claim C6: a directory entry whose lowered name equals a lowered
exclusion entry contributes nothing to the catalog (the scan of a listing
containing it equals the scan with it removed), regardless of its extension
or of the case in which the exclusion entry is written. -/
theorem scandirectory_excluded_invisible
    (sol : SolutionData) (fs : FileSystem) (dir name : PyStr) (b : Bool)
    (l1 l2 : List FSEntry) (files : List SourceFile)
    (hfs : fsLookup fs (pyjoin sol.workingDir dir)
            = some (l1 ++ { name := name, isFile := b } :: l2))
    (hex : ∃ ex ∈ sol.exclude, pyLower name = pyLower ex) :
    scandirectory sol fs dir files
      = files ++ scanListing sol dir (pyjoin sol.workingDir dir) (l1 ++ l2) := by
  obtain ⟨ex, hmem, heq⟩ := hex
  have hexc : isexcluded sol.exclude (pyLower name) = true :=
    List.any_eq_true.mpr ⟨ex, hmem, beq_iff_eq.mpr heq⟩
  simp [scandirectory, hfs, scanListing, List.flatMap_append, List.flatMap_cons,
        scanentry, hexc]

theorem scandirectory_excluded_invisible_witness :
    scandirectory solExcl fsExcl (str ".") [] = [] := by
  have h := scandirectory_excluded_invisible solExcl fsExcl (str ".")
    (str "README.txt") true [] [] [] (by decide)
    ⟨str "ReadMe.TXT", by decide, by decide⟩
  simpa using h
